import Mathlib

/-!
# Room-setup calibration: acquisition loops and boundary geometry

A shallow embedding of `main` of `src/main.cpp`.

* The tracking runtime is an external collaborator.  Every call of
  `GetControllerState` / `GetControllerStateWithPose` is modelled as reading the next
  element of a finite list of samples; a loop that is still polling when the list is
  used up yields `none`.
* The program copies `float` values and never computes with them, so the type `F` of
  coordinates is a parameter of the whole development.
* Standard output of the finishing step is modelled as a list of output blocks, one
  block per group of lines printed together.
-/

namespace RoomSetup

/-! ## Data model -/

/-- Modelled from the spec: the runtime header `openvr.h` is not under `src/`; the three
button identifiers and the tracking-result value that `main` refers to are parameters. -/
structure OpenVR where
  k_EButton_ApplicationMenu : Nat
  k_EButton_Grip : Nat
  k_EButton_SteamVR_Trigger : Nat
  TrackingResult_Running_OK : Int

/-- The values the identifiers have in the runtime header (used for concrete runs). -/
def openvr_h : OpenVR :=
  OpenVR.mk 1 2 33 200

/-- Modelled from the spec: `ButtonMaskFromId` of the runtime header, the 64-bit mask with
the single bit `id` set (`1ull << id`). -/
def ButtonMaskFromId (id : Nat) : Nat :=
  (1 <<< id) % 2 ^ 64

/-- Modelled from the spec: `VRControllerState_t` of the runtime header, reduced to the
button bitmask, the only field `main` reads. -/
structure VRControllerState_t where
  ulButtonPressed : Nat

/-- Modelled from the spec: `HmdMatrix34_t` of the runtime header, a 3x4 matrix. -/
structure HmdMatrix34_t (F : Type) where
  m : Fin 3 → Fin 4 → F

/-- Modelled from the spec: `TrackedDevicePose_t` of the runtime header, reduced to the
fields `main` reads. -/
structure TrackedDevicePose_t (F : Type) where
  mDeviceToAbsoluteTracking : HmdMatrix34_t F
  bPoseIsValid : Bool
  eTrackingResult : Int

/-- One reading of the active controller: what a call of `GetControllerStateWithPose`
stores into `state` and `pose`.  A call of `GetControllerState` uses `state` only. -/
structure Sample (F : Type) where
  state : VRControllerState_t
  pose : TrackedDevicePose_t F

/-- The struct `point3d` of `src/main.cpp`. -/
structure point3d (F : Type) where
  x : F
  y : F
  z : F
deriving DecidableEq, Repr

/-- The macro `CHAPERONE_HEIGHT` of `src/main.cpp`. -/
def CHAPERONE_HEIGHT : ℚ :=
  2.4300000667572021

/-- One printed vertex line `[ x, y, z ],`: `x` and `z` are stored floats, `y` is the
literal `0` or `CHAPERONE_HEIGHT`. -/
structure Vertex (F : Type) where
  x : F
  y : ℚ
  z : F
deriving DecidableEq

/-- The four vertex lines printed by one iteration of the output loop. -/
structure WallSegment (F : Type) where
  v0 : Vertex F
  v1 : Vertex F
  v2 : Vertex F
  v3 : Vertex F
deriving DecidableEq

/-- The variables `count` and `points` of `main`.  The `int` counter is an unbounded
integer here: it is only ever printed, and it can leave the `int` range only after
`2^31` stored points. -/
structure Session (F : Type) where
  count : Int
  points : List (point3d F)
deriving DecidableEq

/-- What the finishing step prints, one constructor per group of lines. -/
inductive Out (F : Type) where
  | tooFewPoints (size : Nat)
  | header
  | segment (w : WallSegment F)
deriving DecidableEq

/-- How one iteration of the collecting loop ends: with `break` or by going round. -/
inductive Outcome (F : Type) where
  | finished (st : Session F) (rest : List (Sample F))
  | continuing (st : Session F) (rest : List (Sample F))

/-- The session an iteration leaves behind. -/
def Outcome.session {F : Type} : Outcome F → Session F
  | Outcome.finished st _ => st
  | Outcome.continuing st _ => st

/-- The samples an iteration has not read. -/
def Outcome.unread {F : Type} : Outcome F → List (Sample F)
  | Outcome.finished _ rest => rest
  | Outcome.continuing _ rest => rest

/-- Whether the iteration left the loop. -/
def Outcome.isFinished {F : Type} : Outcome F → Bool
  | Outcome.finished _ _ => true
  | Outcome.continuing _ _ => false

/-! ## Button tests -/

/-- The test `state.ulButtonPressed & ButtonMaskFromId(id)` used as a condition. -/
def pressed (state : VRControllerState_t) (id : Nat) : Bool :=
  state.ulButtonPressed &&& ButtonMaskFromId id != 0

/-! ## Controller selection (lines 78-91) -/

/-- The value `controller` starts with: `uint32_t controller = -1`. -/
def noController : Nat :=
  2 ^ 32 - 1

/-- The `for (uint32_t c: controllers)` loop of one selection tick: `read c` is the button
bitmask `GetControllerState` reports for device `c` on this tick; `controller` is the
value of the variable when the loop is entered. -/
def selectFor (vr : OpenVR) (read : Nat → Nat) (controller : Nat) : List Nat → Nat
  | [] => controller
  | c :: cs =>
    if pressed (VRControllerState_t.mk (read c)) vr.k_EButton_SteamVR_Trigger then c
    else selectFor vr read controller cs

/-- The loop `while (controller == -1)`: one element of `ticks` per iteration.  The result
is `none` when the ticks are used up with the loop still running. -/
def selectController (vr : OpenVR) (controllers : List Nat) :
    Nat → List (Nat → Nat) → Option (Nat × List (Nat → Nat))
  | controller, [] =>
    if controller = noController then none else some (controller, [])
  | controller, read :: rest =>
    if controller = noController then
      selectController vr controllers (selectFor vr read controller controllers) rest
    else some (controller, read :: rest)

/-! ## Collecting loop (lines 106-154) -/

/-- The inner loop "now wait until user releases trigger": reads samples until one has
the Trigger bit clear and returns the samples not yet read. -/
def waitRelease (vr : OpenVR) {F : Type} : List (Sample F) → Option (List (Sample F))
  | [] => none
  | s :: rest =>
    if pressed s.state vr.k_EButton_SteamVR_Trigger then waitRelease vr rest else some rest

/-- The translation column of the pose matrix, as read into `pos`. -/
def posOf {F : Type} (pose : TrackedDevicePose_t F) : point3d F :=
  point3d.mk (pose.mDeviceToAbsoluteTracking.m 0 3) (pose.mDeviceToAbsoluteTracking.m 1 3)
    (pose.mDeviceToAbsoluteTracking.m 2 3)

/-- The effect of the Grip branch on `count` and `points`. -/
def afterGrip (vr : OpenVR) {F : Type} (s : Sample F) (st : Session F) : Session F :=
  if pressed s.state vr.k_EButton_Grip then Session.mk 0 [] else st

/-- The body of the collecting loop `while (true)`: `s` is the sample read at the top of
the iteration, `rest` the samples still to come. -/
def iteration (vr : OpenVR) {F : Type} (s : Sample F) (rest : List (Sample F))
    (st : Session F) : Option (Outcome F) :=
  if pressed s.state vr.k_EButton_ApplicationMenu then
    some (Outcome.finished st rest)
  else
    let st1 := afterGrip vr s st
    if pressed s.state vr.k_EButton_SteamVR_Trigger then
      if !s.pose.bPoseIsValid then
        some (Outcome.continuing st1 rest)
      else if s.pose.eTrackingResult != vr.TrackingResult_Running_OK then
        some (Outcome.continuing st1 rest)
      else
        match waitRelease vr rest with
        | none => none
        | some rest1 =>
          some (Outcome.continuing (Session.mk (st1.count + 1) (st1.points ++ [posOf s.pose])) rest1)
    else
      some (Outcome.continuing st1 rest)

/-- The collecting loop, at most `fuel` iterations.  The result is the session at the
`break` together with the samples not read. -/
def collectingFuel (vr : OpenVR) {F : Type} :
    Nat → List (Sample F) → Session F → Option (Session F × List (Sample F))
  | 0, _, _ => none
  | _ + 1, [], _ => none
  | fuel + 1, s :: rest, st =>
    match iteration vr s rest st with
    | none => none
    | some (Outcome.finished st1 rest1) => some (st1, rest1)
    | some (Outcome.continuing st1 rest1) => collectingFuel vr fuel rest1 st1

/-- The collecting loop: every iteration reads at least one sample, so as many iterations
as there are samples is enough. -/
def collecting (vr : OpenVR) {F : Type} (samples : List (Sample F)) (st : Session F) :
    Option (Session F × List (Sample F)) :=
  collectingFuel vr samples.length samples st

/-- The sessions at the start of every iteration of the collecting loop, followed by the
session at the exit when the loop exits. -/
def iterationStarts (vr : OpenVR) {F : Type} :
    Nat → List (Sample F) → Session F → List (Session F)
  | 0, _, st => [st]
  | _ + 1, [], st => [st]
  | fuel + 1, s :: rest, st =>
    match iteration vr s rest st with
    | none => [st]
    | some (Outcome.finished st1 _) => [st, st1]
    | some (Outcome.continuing st1 rest1) => st :: iterationStarts vr fuel rest1 st1

/-! ## Finishing step (lines 156-178) -/

/-- The four vertex lines printed for `last = points[i-1]` and `curr = points[i]`. -/
def wall {F : Type} (last curr : point3d F) : WallSegment F :=
  WallSegment.mk (Vertex.mk curr.x 0 last.z) (Vertex.mk curr.x CHAPERONE_HEIGHT last.z)
    (Vertex.mk curr.x 0 curr.z) (Vertex.mk curr.x CHAPERONE_HEIGHT curr.z)

/-- The loop `for (int i = 1; i < points.size(); i++)`, from index `i` on, at most `fuel`
iterations. -/
def boundsLoop {F : Type} (points : List (point3d F)) : Nat → Nat → List (WallSegment F)
  | 0, _ => []
  | fuel + 1, i =>
    if i < points.length then
      match points[i - 1]?, points[i]? with
      | some last, some curr => wall last curr :: boundsLoop points fuel (i + 1)
      | _, _ => []
    else []

/-- The wall segments printed for `points`: the output loop started at `i = 1`. -/
def collision_bounds {F : Type} (points : List (point3d F)) : List (WallSegment F) :=
  boundsLoop points points.length 1

/-- The end of `main`: exit status and printed blocks for the final `points`. -/
def finish {F : Type} (points : List (point3d F)) : Int × List (Out F) :=
  if points.length < 3 then
    (1, [Out.tooFewPoints points.length])
  else
    (0, Out.header :: (collision_bounds points).map Out.segment)

/-- The wall segments among printed blocks. -/
def segmentsOf {F : Type} : List (Out F) → List (WallSegment F)
  | [] => []
  | Out.segment w :: os => w :: segmentsOf os
  | _ :: os => segmentsOf os

/-- The program from the start of the collecting loop to its exit: `none` while the
collecting loop is still polling when the samples are used up. -/
def calibrate (vr : OpenVR) {F : Type} (samples : List (Sample F)) : Option (Int × List (Out F)) :=
  (collecting vr samples (Session.mk 0 [])).map (fun r => finish r.1.points)

/-! ## Concrete samples for the runs below -/

/-- A pose with translation `(x, y, z)` and the given quality flags. -/
def mkPose (x y z : Int) (valid : Bool) (result : Int) : TrackedDevicePose_t Int :=
  TrackedDevicePose_t.mk (HmdMatrix34_t.mk (fun i j => if j = 3 then (if i = 0 then x else if i = 1 then y else z) else 0))
    valid result

/-- A sample with button bitmask `buttons` and a pose. -/
def mkSample (buttons : Nat) (x y z : Int) (valid : Bool) (result : Int) : Sample Int :=
  Sample.mk (VRControllerState_t.mk buttons) (mkPose x y z valid result)

/-- Three corner points `(0,0)`, `(1,0)`, `(1,1)` on the floor, with heights 7, 8, 9. -/
def corners : List (point3d Int) :=
  [point3d.mk 0 7 0, point3d.mk 1 8 0, point3d.mk 1 9 1]

/-- The selection ticks of a run with candidates 3 and 5: nobody presses, then device 5
presses Trigger, then nobody presses. -/
def selectionTicks : List (Nat → Nat) :=
  [fun _ => 0, fun c => if c = 5 then 8589934592 else 0, fun _ => 0]

/-- Bitmask of the Menu button under `openvr_h`. -/
def menuBit : Nat := 2

/-- Bitmask of the Grip button under `openvr_h`. -/
def gripBit : Nat := 4

/-- Bitmask of the Trigger button under `openvr_h`. -/
def triggerBit : Nat := 8589934592

/-! ## Boundary geometry: lemmas -/

theorem boundsLoop_step {F : Type} (points : List (point3d F)) (fuel i : Nat)
    (hi : i < points.length) :
    boundsLoop points (fuel + 1) i
      = wall (points[i - 1]) (points[i]) :: boundsLoop points fuel (i + 1) := by
  have h1 : i - 1 < points.length := by omega
  simp [boundsLoop, hi, List.getElem?_eq_getElem, h1]

theorem boundsLoop_done {F : Type} (points : List (point3d F)) (fuel i : Nat)
    (hi : points.length ≤ i) : boundsLoop points fuel i = [] := by
  cases fuel with
  | zero => rfl
  | succ n => simp [boundsLoop, Nat.not_lt.mpr hi]

theorem boundsLoop_length {F : Type} (points : List (point3d F)) :
    ∀ fuel i, points.length ≤ fuel + i → (boundsLoop points fuel i).length = points.length - i := by
  intro fuel
  induction fuel with
  | zero =>
    intro i h
    simp [boundsLoop]
    omega
  | succ n ih =>
    intro i h
    by_cases hi : i < points.length
    · rw [boundsLoop_step points n i hi, List.length_cons, ih (i + 1) (by omega)]
      omega
    · rw [boundsLoop_done points (n + 1) i (by omega)]
      simp
      omega

theorem boundsLoop_getElem? {F : Type} (points : List (point3d F)) :
    ∀ fuel i k, points.length ≤ fuel + i → ∀ (h : i + k < points.length),
      (boundsLoop points fuel i)[k]?
        = some (wall (points.get ⟨i + k - 1, by omega⟩) (points.get ⟨i + k, h⟩)) := by
  intro fuel
  induction fuel with
  | zero =>
    intro i k h hk
    omega
  | succ n ih =>
    intro i k h hk
    rw [boundsLoop_step points n i (by omega)]
    cases k with
    | zero => simp
    | succ k =>
      rw [List.getElem?_cons_succ, ih (i + 1) k (by omega) (by omega)]
      have e : i + 1 + k = i + (k + 1) := by omega
      simp [e]

theorem boundsLoop_congr {F : Type} (p q : List (point3d F)) (hlen : p.length = q.length)
    (hz : ∀ i (hp : i < p.length) (hq : i < q.length), (p.get ⟨i, hp⟩).z = (q.get ⟨i, hq⟩).z)
    (hx : ∀ i (hp : i < p.length) (hq : i < q.length), 1 ≤ i →
      (p.get ⟨i, hp⟩).x = (q.get ⟨i, hq⟩).x) :
    ∀ fuel i, 1 ≤ i → boundsLoop p fuel i = boundsLoop q fuel i := by
  intro fuel
  induction fuel with
  | zero =>
    intro i _
    rfl
  | succ n ih =>
    intro i hi
    by_cases hlt : i < p.length
    · have hq : i < q.length := by omega
      rw [boundsLoop_step p n i hlt, boundsLoop_step q n i hq, ih (i + 1) (by omega)]
      have h1 := hz (i - 1) (by omega) (by omega)
      have h2 := hz i hlt hq
      have h3 := hx i hlt hq hi
      simp only [List.get_eq_getElem] at h1 h2 h3
      simp [wall, h1, h2, h3]
    · rw [boundsLoop_done p (n + 1) i (by omega), boundsLoop_done q (n + 1) i (by omega)]

theorem segmentsOf_map_segment {F : Type} (ws : List (WallSegment F)) :
    segmentsOf (ws.map Out.segment) = ws := by
  induction ws with
  | nil => rfl
  | cons w ws ih => simp [segmentsOf, ih]

theorem finish_of_lt {F : Type} (points : List (point3d F)) (h : points.length < 3) :
    finish points = (1, [Out.tooFewPoints points.length]) := by
  simp [finish, h]

theorem finish_of_ge {F : Type} (points : List (point3d F)) (h : 3 ≤ points.length) :
    finish points = (0, Out.header :: (collision_bounds points).map Out.segment) := by
  simp [finish, Nat.not_lt.mpr h]

theorem segmentsOf_finish_of_ge {F : Type} (points : List (point3d F)) (h : 3 ≤ points.length) :
    segmentsOf (finish points).2 = collision_bounds points := by
  rw [finish_of_ge points h]
  simp [segmentsOf, segmentsOf_map_segment]

/-! ## Collecting loop: lemmas -/

theorem afterGrip_pressed (vr : OpenVR) {F : Type} (s : Sample F) (st : Session F)
    (hG : pressed s.state vr.k_EButton_Grip = true) : afterGrip vr s st = Session.mk 0 [] := by
  simp [afterGrip, hG]

theorem afterGrip_released (vr : OpenVR) {F : Type} (s : Sample F) (st : Session F)
    (hG : pressed s.state vr.k_EButton_Grip = false) : afterGrip vr s st = st := by
  simp [afterGrip, hG]

theorem waitRelease_held (vr : OpenVR) {F : Type} (held : List (Sample F)) (r : Sample F)
    (rest : List (Sample F))
    (hheld : ∀ s ∈ held, pressed s.state vr.k_EButton_SteamVR_Trigger = true)
    (hr : pressed r.state vr.k_EButton_SteamVR_Trigger = false) :
    waitRelease vr (held ++ r :: rest) = some rest := by
  induction held with
  | nil => simp [waitRelease, hr]
  | cons a held ih =>
    have ha := hheld a (List.mem_cons_self a held)
    have hrest : ∀ s ∈ held, pressed s.state vr.k_EButton_SteamVR_Trigger = true :=
      fun s hs => hheld s (List.mem_cons_of_mem a hs)
    simp [waitRelease, ha, ih hrest]

theorem waitRelease_length (vr : OpenVR) {F : Type} :
    ∀ (l r : List (Sample F)), waitRelease vr l = some r → r.length < l.length := by
  intro l
  induction l with
  | nil =>
    intro r h
    simp [waitRelease] at h
  | cons a l ih =>
    intro r h
    by_cases ha : pressed a.state vr.k_EButton_SteamVR_Trigger = true
    · simp only [waitRelease, ha, if_true] at h
      have := ih r h
      simp only [List.length_cons]
      omega
    · simp only [waitRelease, ha] at h
      simp only [Bool.false_eq_true, if_false, Option.some.injEq] at h
      subst h
      simp

theorem iteration_menu (vr : OpenVR) {F : Type} (s : Sample F) (rest : List (Sample F))
    (st : Session F) (hM : pressed s.state vr.k_EButton_ApplicationMenu = true) :
    iteration vr s rest st = some (Outcome.finished st rest) := by
  simp [iteration, hM]

theorem iteration_idle (vr : OpenVR) {F : Type} (s : Sample F) (rest : List (Sample F))
    (st : Session F) (hM : pressed s.state vr.k_EButton_ApplicationMenu = false)
    (hT : pressed s.state vr.k_EButton_SteamVR_Trigger = false) :
    iteration vr s rest st = some (Outcome.continuing (afterGrip vr s st) rest) := by
  simp [iteration, hM, hT]

theorem iteration_rejected (vr : OpenVR) {F : Type} (s : Sample F) (rest : List (Sample F))
    (st : Session F) (hM : pressed s.state vr.k_EButton_ApplicationMenu = false)
    (hbad : ¬ (s.pose.bPoseIsValid = true ∧ s.pose.eTrackingResult = vr.TrackingResult_Running_OK)) :
    iteration vr s rest st = some (Outcome.continuing (afterGrip vr s st) rest) := by
  by_cases hT : pressed s.state vr.k_EButton_SteamVR_Trigger = true
  · by_cases hv : s.pose.bPoseIsValid = true
    · have hne : s.pose.eTrackingResult ≠ vr.TrackingResult_Running_OK := fun h => hbad ⟨hv, h⟩
      simp [iteration, hM, hT, hv, hne]
    · simp [iteration, hM, hT, hv]
  · simp [iteration, hM, hT]

theorem iteration_accepted (vr : OpenVR) {F : Type} (s : Sample F) (rest : List (Sample F))
    (st : Session F) (hM : pressed s.state vr.k_EButton_ApplicationMenu = false)
    (hT : pressed s.state vr.k_EButton_SteamVR_Trigger = true)
    (hv : s.pose.bPoseIsValid = true)
    (hok : s.pose.eTrackingResult = vr.TrackingResult_Running_OK) :
    iteration vr s rest st
      = (waitRelease vr rest).map (fun rest1 =>
          Outcome.continuing (Session.mk ((afterGrip vr s st).count + 1)
            ((afterGrip vr s st).points ++ [posOf s.pose])) rest1) := by
  cases hw : waitRelease vr rest <;> simp [iteration, hM, hT, hv, hok, hw]

theorem iteration_unread_le (vr : OpenVR) {F : Type} (s : Sample F) (rest : List (Sample F))
    (st : Session F) (o : Outcome F) (h : iteration vr s rest st = some o) :
    o.unread.length ≤ rest.length := by
  by_cases hM : pressed s.state vr.k_EButton_ApplicationMenu = true
  · rw [iteration_menu vr s rest st hM] at h
    cases h
    simp [Outcome.unread]
  · have hM2 : pressed s.state vr.k_EButton_ApplicationMenu = false := by simpa using hM
    by_cases hgood : s.pose.bPoseIsValid = true ∧ s.pose.eTrackingResult = vr.TrackingResult_Running_OK
    · by_cases hT : pressed s.state vr.k_EButton_SteamVR_Trigger = true
      · rw [iteration_accepted vr s rest st hM2 hT hgood.1 hgood.2] at h
        cases hw : waitRelease vr rest with
        | none => simp [hw] at h
        | some r =>
          simp only [hw, Option.map_some', Option.some.injEq] at h
          subst h
          have := waitRelease_length vr rest r hw
          simp only [Outcome.unread]
          omega
      · have hT2 : pressed s.state vr.k_EButton_SteamVR_Trigger = false := by simpa using hT
        rw [iteration_idle vr s rest st hM2 hT2] at h
        cases h
        simp [Outcome.unread]
    · rw [iteration_rejected vr s rest st hM2 hgood] at h
      cases h
      simp [Outcome.unread]

theorem collectingFuel_stable (vr : OpenVR) {F : Type} :
    ∀ (n : Nat) (samples : List (Sample F)) (st : Session F) (f1 f2 : Nat),
      samples.length ≤ n → samples.length ≤ f1 → samples.length ≤ f2 →
      collectingFuel vr f1 samples st = collectingFuel vr f2 samples st := by
  intro n
  induction n with
  | zero =>
    intro samples st f1 f2 hn _ _
    have hnil : samples = [] := List.length_eq_zero.mp (by omega)
    subst hnil
    cases f1 <;> cases f2 <;> rfl
  | succ n ih =>
    intro samples st f1 f2 hn h1 h2
    cases samples with
    | nil => cases f1 <;> cases f2 <;> rfl
    | cons s rest =>
      simp only [List.length_cons] at hn h1 h2
      obtain ⟨g1, rfl⟩ : ∃ g, f1 = g + 1 := ⟨f1 - 1, by omega⟩
      obtain ⟨g2, rfl⟩ : ∃ g, f2 = g + 1 := ⟨f2 - 1, by omega⟩
      simp only [collectingFuel]
      cases hit : iteration vr s rest st with
      | none => rfl
      | some o =>
        cases o with
        | finished st1 rest1 => rfl
        | continuing st1 rest1 =>
          have hle := iteration_unread_le vr s rest st _ hit
          simp only [Outcome.unread] at hle
          exact ih rest1 st1 g1 g2 (by omega) (by omega) (by omega)

theorem collectingFuel_enough (vr : OpenVR) {F : Type} (fuel : Nat) (samples : List (Sample F))
    (st : Session F) (h : samples.length ≤ fuel) :
    collectingFuel vr fuel samples st = collecting vr samples st :=
  collectingFuel_stable vr samples.length samples st fuel samples.length (le_refl _) h (le_refl _)

theorem collecting_finished (vr : OpenVR) {F : Type} (s : Sample F) (rest : List (Sample F))
    (st st1 : Session F) (rest1 : List (Sample F))
    (h : iteration vr s rest st = some (Outcome.finished st1 rest1)) :
    collecting vr (s :: rest) st = some (st1, rest1) := by
  simp [collecting, collectingFuel, h]

theorem collecting_continuing (vr : OpenVR) {F : Type} (s : Sample F) (rest : List (Sample F))
    (st st1 : Session F) (rest1 : List (Sample F))
    (h : iteration vr s rest st = some (Outcome.continuing st1 rest1)) :
    collecting vr (s :: rest) st = collecting vr rest1 st1 := by
  have hle := iteration_unread_le vr s rest st _ h
  simp only [Outcome.unread] at hle
  have e : collecting vr (s :: rest) st = collectingFuel vr rest.length rest1 st1 := by
    simp [collecting, collectingFuel, h]
  rw [e]
  exact collectingFuel_enough vr rest.length rest1 st1 hle

theorem iteration_cases (vr : OpenVR) {F : Type} (s : Sample F) (rest : List (Sample F))
    (st : Session F) (o : Outcome F) (h : iteration vr s rest st = some o) :
    o = Outcome.finished st rest ∨ o = Outcome.continuing (afterGrip vr s st) rest ∨
    ∃ rest1, waitRelease vr rest = some rest1 ∧
      o = Outcome.continuing (Session.mk ((afterGrip vr s st).count + 1)
            ((afterGrip vr s st).points ++ [posOf s.pose])) rest1 := by
  by_cases hM : pressed s.state vr.k_EButton_ApplicationMenu = true
  · rw [iteration_menu vr s rest st hM] at h
    cases h
    exact Or.inl rfl
  · have hM2 : pressed s.state vr.k_EButton_ApplicationMenu = false := by simpa using hM
    by_cases hgood : s.pose.bPoseIsValid = true ∧ s.pose.eTrackingResult = vr.TrackingResult_Running_OK
    · by_cases hT : pressed s.state vr.k_EButton_SteamVR_Trigger = true
      · rw [iteration_accepted vr s rest st hM2 hT hgood.1 hgood.2] at h
        cases hw : waitRelease vr rest with
        | none => simp [hw] at h
        | some r =>
          simp only [hw, Option.map_some', Option.some.injEq] at h
          exact Or.inr (Or.inr ⟨r, rfl, h.symm⟩)
      · have hT2 : pressed s.state vr.k_EButton_SteamVR_Trigger = false := by simpa using hT
        rw [iteration_idle vr s rest st hM2 hT2] at h
        cases h
        exact Or.inr (Or.inl rfl)
    · rw [iteration_rejected vr s rest st hM2 hgood] at h
      cases h
      exact Or.inr (Or.inl rfl)

theorem afterGrip_invariant (vr : OpenVR) {F : Type} (s : Sample F) (st : Session F)
    (h : st.count = st.points.length) :
    (afterGrip vr s st).count = (afterGrip vr s st).points.length := by
  by_cases hG : pressed s.state vr.k_EButton_Grip = true
  · simp [afterGrip, hG]
  · simp [afterGrip, hG, h]

theorem iteration_invariant (vr : OpenVR) {F : Type} (s : Sample F) (rest : List (Sample F))
    (st : Session F) (o : Outcome F) (hinv : st.count = st.points.length)
    (h : iteration vr s rest st = some o) :
    o.session.count = o.session.points.length := by
  have hg := afterGrip_invariant vr s st hinv
  rcases iteration_cases vr s rest st o h with rfl | rfl | ⟨rest1, _, rfl⟩
  · exact hinv
  · exact hg
  · simp [Outcome.session, hg]

theorem iterationStarts_invariant (vr : OpenVR) {F : Type} :
    ∀ (fuel : Nat) (samples : List (Sample F)) (st0 : Session F),
      st0.count = st0.points.length →
      ∀ st ∈ iterationStarts vr fuel samples st0, st.count = st.points.length := by
  intro fuel
  induction fuel with
  | zero =>
    intro samples st0 h0 st hst
    simp only [iterationStarts, List.mem_singleton] at hst
    subst hst
    exact h0
  | succ n ih =>
    intro samples st0 h0 st hst
    cases samples with
    | nil =>
      simp only [iterationStarts, List.mem_singleton] at hst
      subst hst
      exact h0
    | cons s rest =>
      simp only [iterationStarts] at hst
      cases hit : iteration vr s rest st0 with
      | none =>
        simp only [hit, List.mem_singleton] at hst
        subst hst
        exact h0
      | some o =>
        have ho := iteration_invariant vr s rest st0 o h0 hit
        cases o with
        | finished st1 rest1 =>
          simp only [hit, List.mem_cons, List.mem_singleton, List.not_mem_nil, or_false] at hst
          rcases hst with rfl | rfl
          · exact h0
          · exact ho
        | continuing st1 rest1 =>
          simp only [hit, List.mem_cons] at hst
          rcases hst with rfl | hmem
          · exact h0
          · exact ih rest1 st1 ho st hmem

theorem collectingFuel_mem_iterationStarts (vr : OpenVR) {F : Type} :
    ∀ (fuel : Nat) (samples : List (Sample F)) (st0 st : Session F) (rest : List (Sample F)),
      collectingFuel vr fuel samples st0 = some (st, rest) →
      st ∈ iterationStarts vr fuel samples st0 := by
  intro fuel
  induction fuel with
  | zero =>
    intro samples st0 st rest h
    simp [collectingFuel] at h
  | succ n ih =>
    intro samples st0 st rest h
    cases samples with
    | nil => simp [collectingFuel] at h
    | cons s tl =>
      simp only [collectingFuel] at h
      simp only [iterationStarts]
      cases hit : iteration vr s tl st0 with
      | none => simp [hit] at h
      | some o =>
        cases o with
        | finished st1 rest1 =>
          simp only [hit, Option.some.injEq, Prod.mk.injEq] at h
          simp [h.1]
        | continuing st1 rest1 =>
          simp only [hit] at h
          exact List.mem_cons_of_mem _ (ih rest1 st1 st rest h)

theorem collecting_rejected_run (vr : OpenVR) {F : Type} (bad : List (Sample F))
    (rest : List (Sample F)) (st : Session F)
    (hbad : ∀ s ∈ bad, pressed s.state vr.k_EButton_ApplicationMenu = false ∧
      pressed s.state vr.k_EButton_Grip = false ∧
      ¬ (s.pose.bPoseIsValid = true ∧ s.pose.eTrackingResult = vr.TrackingResult_Running_OK)) :
    collecting vr (bad ++ rest) st = collecting vr rest st := by
  induction bad with
  | nil => rfl
  | cons a bad ih =>
    obtain ⟨hM, hG, hq⟩ := hbad a (List.mem_cons_self a bad)
    have hit := iteration_rejected vr a (bad ++ rest) st hM hq
    rw [afterGrip_released vr a st hG] at hit
    rw [List.cons_append, collecting_continuing vr a (bad ++ rest) st st (bad ++ rest) hit]
    exact ih (fun s hs => hbad s (List.mem_cons_of_mem a hs))

theorem collecting_grip_run (vr : OpenVR) {F : Type} (grips : List (Sample F))
    (rest : List (Sample F))
    (hgrips : ∀ s ∈ grips, pressed s.state vr.k_EButton_ApplicationMenu = false ∧
      pressed s.state vr.k_EButton_Grip = true ∧
      pressed s.state vr.k_EButton_SteamVR_Trigger = false) :
    ∀ st : Session F, grips ≠ [] →
      collecting vr (grips ++ rest) st = collecting vr rest (Session.mk 0 []) := by
  induction grips with
  | nil =>
    intro st hne
    exact absurd rfl hne
  | cons a grips ih =>
    intro st _
    obtain ⟨hM, hG, hT⟩ := hgrips a (List.mem_cons_self a grips)
    have hit := iteration_idle vr a (grips ++ rest) st hM hT
    rw [afterGrip_pressed vr a st hG] at hit
    rw [List.cons_append, collecting_continuing vr a (grips ++ rest) st _ (grips ++ rest) hit]
    by_cases hnil : grips = []
    · subst hnil
      rfl
    · exact ih (fun s hs => hgrips s (List.mem_cons_of_mem a hs)) _ hnil

theorem iteration_capture (vr : OpenVR) {F : Type} (s : Sample F) (held : List (Sample F))
    (r : Sample F) (rest : List (Sample F)) (st : Session F)
    (hM : pressed s.state vr.k_EButton_ApplicationMenu = false)
    (hT : pressed s.state vr.k_EButton_SteamVR_Trigger = true)
    (hv : s.pose.bPoseIsValid = true)
    (hok : s.pose.eTrackingResult = vr.TrackingResult_Running_OK)
    (hheld : ∀ h ∈ held, pressed h.state vr.k_EButton_SteamVR_Trigger = true)
    (hr : pressed r.state vr.k_EButton_SteamVR_Trigger = false) :
    iteration vr s (held ++ r :: rest) st
      = some (Outcome.continuing (Session.mk ((afterGrip vr s st).count + 1)
          ((afterGrip vr s st).points ++ [posOf s.pose])) rest) := by
  rw [iteration_accepted vr s _ st hM hT hv hok, waitRelease_held vr held r rest hheld hr]
  rfl

/-! ## Controller selection: lemmas -/

theorem selectFor_spec (vr : OpenVR) (read : Nat → Nat) (controller : Nat) :
    ∀ (cs : List Nat),
      (selectFor vr read controller cs = controller ∧
        ∀ d ∈ cs, pressed (VRControllerState_t.mk (read d)) vr.k_EButton_SteamVR_Trigger = false) ∨
      (∃ before after, cs = before ++ selectFor vr read controller cs :: after ∧
        (∀ d ∈ before,
          pressed (VRControllerState_t.mk (read d)) vr.k_EButton_SteamVR_Trigger = false) ∧
        pressed (VRControllerState_t.mk (read (selectFor vr read controller cs)))
          vr.k_EButton_SteamVR_Trigger = true) := by
  intro cs
  induction cs with
  | nil => exact Or.inl ⟨rfl, by simp⟩
  | cons c cs ih =>
    by_cases hc : pressed (VRControllerState_t.mk (read c)) vr.k_EButton_SteamVR_Trigger = true
    · refine Or.inr ⟨[], cs, ?_, by simp, ?_⟩
      · simp [selectFor, hc]
      · simp [selectFor, hc]
    · have hc2 : pressed (VRControllerState_t.mk (read c)) vr.k_EButton_SteamVR_Trigger = false := by
        simpa using hc
      have e : selectFor vr read controller (c :: cs) = selectFor vr read controller cs := by
        simp [selectFor, hc2]
      rw [e]
      rcases ih with ⟨h1, h2⟩ | ⟨before, after, h1, h2, h3⟩
      · refine Or.inl ⟨h1, ?_⟩
        intro d hd
        rcases List.mem_cons.mp hd with rfl | hd
        · exact hc2
        · exact h2 d hd
      · refine Or.inr ⟨c :: before, after, ?_, ?_, h3⟩
        · rw [List.cons_append, ← h1]
        · intro d hd
          rcases List.mem_cons.mp hd with rfl | hd
          · exact hc2
          · exact h2 d hd

theorem selectController_tick (vr : OpenVR) (controllers : List Nat) (read : Nat → Nat)
    (rest : List (Nat → Nat)) :
    selectController vr controllers noController (read :: rest)
      = selectController vr controllers (selectFor vr read noController controllers) rest := by
  simp [selectController]

theorem selectController_selected (vr : OpenVR) (controllers : List Nat) (c : Nat)
    (ticks : List (Nat → Nat)) (hc : c ≠ noController) :
    selectController vr controllers c ticks = some (c, ticks) := by
  cases ticks <;> simp [selectController, hc]

theorem selectController_none (vr : OpenVR) (controllers : List Nat) :
    ∀ ticks : List (Nat → Nat),
      (∀ read ∈ ticks, ∀ d ∈ controllers,
        pressed (VRControllerState_t.mk (read d)) vr.k_EButton_SteamVR_Trigger = false) →
      selectController vr controllers noController ticks = none := by
  intro ticks
  induction ticks with
  | nil =>
    intro _
    simp [selectController]
  | cons read rest ih =>
    intro h
    rw [selectController_tick]
    have hsel : selectFor vr read noController controllers = noController := by
      rcases selectFor_spec vr read noController controllers with ⟨h1, _⟩ | ⟨before, after, h1, _, h3⟩
      · exact h1
      · have hmem : selectFor vr read noController controllers
            ∈ before ++ selectFor vr read noController controllers :: after := by
          simp
        rw [← h1] at hmem
        rw [h read (List.mem_cons_self read rest) _ hmem] at h3
        exact absurd h3 (by simp)
    rw [hsel]
    exact ih (fun r hr => h r (List.mem_cons_of_mem read hr))

/-! ## The claims -/

/-- C1: for a point sequence of length `n ≥ 3` the finishing step prints exactly `n - 1`
wall segments, and for every `i` with `1 ≤ i < n` the segment at position `i` (list
index `i - 1`) is `(p[i].x, 0, p[i-1].z)`, `(p[i].x, CHAPERONE_HEIGHT, p[i-1].z)`,
`(p[i].x, 0, p[i].z)`, `(p[i].x, CHAPERONE_HEIGHT, p[i].z)`; so the output is the
consecutive pairs in point order and nothing else (no segment from the last point back
to the first). -/
theorem C1_boundary_segments {F : Type} (points : List (point3d F)) (h : 3 ≤ points.length) :
    (segmentsOf (finish points).2).length = points.length - 1 ∧
    ∀ (i : Nat) (_ : 1 ≤ i) (hi : i < points.length),
      (segmentsOf (finish points).2)[i - 1]?
        = some (WallSegment.mk
            (Vertex.mk (points.get ⟨i, hi⟩).x 0 (points.get ⟨i - 1, by omega⟩).z)
            (Vertex.mk (points.get ⟨i, hi⟩).x CHAPERONE_HEIGHT (points.get ⟨i - 1, by omega⟩).z)
            (Vertex.mk (points.get ⟨i, hi⟩).x 0 (points.get ⟨i, hi⟩).z)
            (Vertex.mk (points.get ⟨i, hi⟩).x CHAPERONE_HEIGHT (points.get ⟨i, hi⟩).z)) := by
  rw [segmentsOf_finish_of_ge points h]
  refine ⟨?_, ?_⟩
  · exact boundsLoop_length points points.length 1 (by omega)
  · intro i h1 hi
    have hk : 1 + (i - 1) < points.length := by omega
    have key := boundsLoop_getElem? points points.length 1 (i - 1) (by omega) hk
    have e : 1 + (i - 1) = i := by omega
    simp only [collision_bounds, key, wall, e]

/-- C1, on the points `(0,0)`, `(1,0)`, `(1,1)`: two segments, the first being
`(1,0,0)`, `(1,CEIL,0)`, `(1,0,0)`, `(1,CEIL,0)`. -/
theorem C1_boundary_segments_witness :
    3 ≤ corners.length ∧ (segmentsOf (finish corners).2).length = 2 ∧
    (segmentsOf (finish corners).2)[0]?
      = some (WallSegment.mk (Vertex.mk 1 0 0) (Vertex.mk 1 CHAPERONE_HEIGHT 0)
          (Vertex.mk 1 0 0) (Vertex.mk 1 CHAPERONE_HEIGHT 0)) :=
  ⟨by decide, (C1_boundary_segments corners (by decide)).1,
    (C1_boundary_segments corners (by decide)).2 1 (by decide) (by decide)⟩

/-- C2: when the collecting loop exits with session `st`, the run returns; with fewer
than 3 points its status is 1 and it prints no wall segment (only the error block), with
3 or more points its status is 0 and it prints the header and the wall segments of the
points; so the status is non-zero iff the final number of points is below 3. -/
theorem C2_insufficient_geometry (vr : OpenVR) {F : Type} (samples rest : List (Sample F))
    (st : Session F) (h : collecting vr samples (Session.mk 0 []) = some (st, rest)) :
    calibrate vr samples = some (finish st.points) ∧
    (st.points.length < 3 →
      (finish st.points).1 = 1 ∧ (finish st.points).2 = [Out.tooFewPoints st.points.length] ∧
      segmentsOf (finish st.points).2 = []) ∧
    (3 ≤ st.points.length →
      (finish st.points).1 = 0 ∧
      (finish st.points).2 = Out.header :: (collision_bounds st.points).map Out.segment ∧
      segmentsOf (finish st.points).2 = collision_bounds st.points) ∧
    ((finish st.points).1 ≠ 0 ↔ st.points.length < 3) := by
  refine ⟨by simp [calibrate, h], ?_, ?_, ?_⟩
  · intro hlt
    rw [finish_of_lt st.points hlt]
    simp [segmentsOf]
  · intro hge
    refine ⟨?_, ?_, segmentsOf_finish_of_ge st.points hge⟩ <;> rw [finish_of_ge st.points hge]
  · by_cases hlt : st.points.length < 3
    · simp [finish_of_lt st.points hlt, hlt]
    · simp [finish_of_ge st.points (Nat.not_lt.mp hlt), hlt]

/-- C2, on a run that presses Menu at once: no point, status 1, only the error block. -/
theorem C2_insufficient_geometry_witness :
    collecting openvr_h [mkSample menuBit 0 0 0 true 200] (Session.mk 0 [])
      = some (Session.mk 0 [], []) ∧
    calibrate openvr_h [mkSample menuBit 0 0 0 true 200]
      = some (finish (Session.mk 0 ([] : List (point3d Int))).points) ∧
    (finish (Session.mk 0 ([] : List (point3d Int))).points).1 = 1 :=
  ⟨rfl,
    (C2_insufficient_geometry openvr_h [mkSample menuBit 0 0 0 true 200] []
      (Session.mk 0 []) rfl).1,
    ((C2_insufficient_geometry openvr_h [mkSample menuBit 0 0 0 true 200] []
      (Session.mk 0 []) rfl).2.1 (by decide)).1⟩

/-- C4: in every collecting state, a sample with the Menu bit set ends the loop on that
iteration; the session handed on is the one from before the iteration and the samples
after it are left unread, whatever the other bits and the pose of the sample are. -/
theorem C4_menu_priority (vr : OpenVR) {F : Type} (s : Sample F) (rest : List (Sample F))
    (st : Session F) (hM : pressed s.state vr.k_EButton_ApplicationMenu = true) :
    iteration vr s rest st = some (Outcome.finished st rest) ∧
    collecting vr (s :: rest) st = some (st, rest) :=
  ⟨iteration_menu vr s rest st hM,
    collecting_finished vr s rest st st rest (iteration_menu vr s rest st hM)⟩

/-- C4, on a sample with Menu, Grip and Trigger all pressed and an accepted pose: the loop
ends with the three stored points untouched and the next sample unread. -/
theorem C4_menu_priority_witness :
    (collecting openvr_h
      [mkSample (menuBit + gripBit + triggerBit) 4 5 6 true 200, mkSample 0 0 0 0 true 200]
      (Session.mk 3 corners)).map (fun r => (r.1, r.2.length))
      = some (Session.mk 3 corners, 1) :=
  congrArg (Option.map (fun r => (r.1, r.2.length)))
    (C4_menu_priority openvr_h (mkSample (menuBit + gripBit + triggerBit) 4 5 6 true 200)
      [mkSample 0 0 0 0 true 200] (Session.mk 3 corners) (by decide)).2

/-- C10: two point sequences of the same length `n ≥ 3` that agree on every `z` and on
every `x` except that of the first point give the same exit status and the same printed
blocks: no `y` and not the first `x` reaches the output. -/
theorem C10_output_independence {F : Type} (p q : List (point3d F))
    (hlen : p.length = q.length) (_ : 3 ≤ p.length)
    (hz : ∀ i (hp : i < p.length) (hq : i < q.length), (p.get ⟨i, hp⟩).z = (q.get ⟨i, hq⟩).z)
    (hx : ∀ i (hp : i < p.length) (hq : i < q.length), 1 ≤ i →
      (p.get ⟨i, hp⟩).x = (q.get ⟨i, hq⟩).x) :
    finish p = finish q ∧ collision_bounds p = collision_bounds q := by
  have hb : collision_bounds p = collision_bounds q := by
    simp only [collision_bounds, ← hlen]
    exact boundsLoop_congr p q hlen hz hx p.length 1 (le_refl 1)
  refine ⟨?_, hb⟩
  simp only [finish, hb, ← hlen]

/-- C3 fails as stated: with one Trigger-and-Grip sample whose pose is invalid, and three
points stored, the iteration goes round with the sequence emptied and the count 0, not
with the sequence and count from before the iteration. -/
theorem C3_counterexample :
    pressed (mkSample (gripBit + triggerBit) 4 5 6 false 200).state
      openvr_h.k_EButton_SteamVR_Trigger = true ∧
    pressed (mkSample (gripBit + triggerBit) 4 5 6 false 200).state
      openvr_h.k_EButton_ApplicationMenu = false ∧
    (mkSample (gripBit + triggerBit) 4 5 6 false 200).pose.bPoseIsValid = false ∧
    (iteration openvr_h (mkSample (gripBit + triggerBit) 4 5 6 false 200) []
        (Session.mk 3 corners)).map Outcome.session = some (Session.mk 0 []) ∧
    (Session.mk 0 [] : Session Int).points ≠ (Session.mk 3 corners).points ∧
    (Session.mk 0 [] : Session Int).count ≠ (Session.mk 3 corners).count := by
  decide

/-- C3, amended: on an iteration whose sample has Trigger pressed and Menu not pressed the
loop never ends; writing `base` for the session left by the Grip branch (the session from
before the iteration when Grip is not pressed, count 0 and no points when it is), a
rejected pose (invalid, or tracking result not Running_OK) leaves exactly `base` and reads
no further sample, and an accepted pose appends the sample's position to `base` once the
release has been read (and keeps waiting while it has not); so a point is appended iff the
pose is valid and tracking is Running_OK. -/
theorem C3_pose_gate (vr : OpenVR) {F : Type} (s : Sample F) (rest : List (Sample F))
    (st : Session F) (hT : pressed s.state vr.k_EButton_SteamVR_Trigger = true)
    (hM : pressed s.state vr.k_EButton_ApplicationMenu = false) :
    (pressed s.state vr.k_EButton_Grip = false → afterGrip vr s st = st) ∧
    (pressed s.state vr.k_EButton_Grip = true → afterGrip vr s st = Session.mk 0 []) ∧
    (¬ (s.pose.bPoseIsValid = true ∧ s.pose.eTrackingResult = vr.TrackingResult_Running_OK) →
      iteration vr s rest st = some (Outcome.continuing (afterGrip vr s st) rest)) ∧
    (s.pose.bPoseIsValid = true ∧ s.pose.eTrackingResult = vr.TrackingResult_Running_OK →
      (∀ rest1, waitRelease vr rest = some rest1 →
        iteration vr s rest st
          = some (Outcome.continuing (Session.mk ((afterGrip vr s st).count + 1)
              ((afterGrip vr s st).points ++ [posOf s.pose])) rest1)) ∧
      (waitRelease vr rest = none → iteration vr s rest st = none)) ∧
    (∀ o, iteration vr s rest st = some o →
      o.isFinished = false ∧
      (o.session.points = (afterGrip vr s st).points ++ [posOf s.pose] ↔
        (s.pose.bPoseIsValid = true ∧
          s.pose.eTrackingResult = vr.TrackingResult_Running_OK))) := by
  refine ⟨afterGrip_released vr s st, afterGrip_pressed vr s st,
    iteration_rejected vr s rest st hM, ?_, ?_⟩
  · intro hgood
    have e := iteration_accepted vr s rest st hM hT hgood.1 hgood.2
    refine ⟨?_, ?_⟩
    · intro rest1 hw
      rw [e, hw]
      rfl
    · intro hw
      rw [e, hw]
      rfl
  · intro o ho
    by_cases hgood : s.pose.bPoseIsValid = true ∧ s.pose.eTrackingResult = vr.TrackingResult_Running_OK
    · rw [iteration_accepted vr s rest st hM hT hgood.1 hgood.2] at ho
      cases hw : waitRelease vr rest with
      | none => simp [hw] at ho
      | some r =>
        simp only [hw, Option.map_some', Option.some.injEq] at ho
        subst ho
        simp [Outcome.isFinished, Outcome.session, hgood]
    · rw [iteration_rejected vr s rest st hM hgood] at ho
      cases ho
      simp [Outcome.isFinished, Outcome.session, hgood]

/-- C3 amended, on a Trigger press with an invalid pose and Grip released: the three
stored points and the count stay as they were. -/
theorem C3_pose_gate_witness :
    (iteration openvr_h (mkSample triggerBit 4 5 6 false 200) [] (Session.mk 3 corners)).map
      Outcome.session = some (Session.mk 3 corners) :=
  congrArg (Option.map Outcome.session)
    ((C3_pose_gate openvr_h (mkSample triggerBit 4 5 6 false 200) [] (Session.mk 3 corners)
      (by decide) (by decide)).2.2.1 (by decide))

/-- C5 fails as stated: a sample with Grip and Trigger pressed and an accepted pose,
followed by the release, leaves one point and count 1 after the iteration, not none. -/
theorem C5_counterexample :
    pressed (mkSample (gripBit + triggerBit) 4 5 6 true 200).state
      openvr_h.k_EButton_Grip = true ∧
    pressed (mkSample (gripBit + triggerBit) 4 5 6 true 200).state
      openvr_h.k_EButton_ApplicationMenu = false ∧
    (iteration openvr_h (mkSample (gripBit + triggerBit) 4 5 6 true 200)
        [mkSample 0 0 0 0 true 200] (Session.mk 3 corners)).map Outcome.session
      = some (Session.mk 1 [point3d.mk 4 5 6]) := by
  decide

/-- C5, amended: on an iteration whose sample has Grip pressed and Menu not pressed every
point stored before the iteration is discarded.  After the iteration the count is 0 and
the sequence is empty, unless the same sample has Trigger pressed with a valid pose and
tracking Running_OK: then the iteration waits for the release and leaves count 1 and the
sequence consisting of the newly captured point alone. -/
theorem C5_grip_reset (vr : OpenVR) {F : Type} (s : Sample F) (rest : List (Sample F))
    (st : Session F) (hG : pressed s.state vr.k_EButton_Grip = true)
    (hM : pressed s.state vr.k_EButton_ApplicationMenu = false) :
    (¬ (pressed s.state vr.k_EButton_SteamVR_Trigger = true ∧ s.pose.bPoseIsValid = true ∧
        s.pose.eTrackingResult = vr.TrackingResult_Running_OK) →
      iteration vr s rest st = some (Outcome.continuing (Session.mk 0 []) rest)) ∧
    (pressed s.state vr.k_EButton_SteamVR_Trigger = true ∧ s.pose.bPoseIsValid = true ∧
        s.pose.eTrackingResult = vr.TrackingResult_Running_OK →
      iteration vr s rest st
        = (waitRelease vr rest).map (fun rest1 =>
            Outcome.continuing (Session.mk 1 [posOf s.pose]) rest1)) := by
  have hg := afterGrip_pressed vr s st hG
  refine ⟨?_, ?_⟩
  · intro hnot
    by_cases hT : pressed s.state vr.k_EButton_SteamVR_Trigger = true
    · have hbad : ¬ (s.pose.bPoseIsValid = true ∧
          s.pose.eTrackingResult = vr.TrackingResult_Running_OK) :=
        fun h => hnot ⟨hT, h.1, h.2⟩
      rw [iteration_rejected vr s rest st hM hbad, hg]
    · have hT2 : pressed s.state vr.k_EButton_SteamVR_Trigger = false := by simpa using hT
      rw [iteration_idle vr s rest st hM hT2, hg]
  · intro h
    rw [iteration_accepted vr s rest st hM h.1 h.2.1 h.2.2, hg]
    simp

/-- C5 amended, on a Grip press alone with three points stored: nothing is left. -/
theorem C5_grip_reset_witness :
    (iteration openvr_h (mkSample gripBit 4 5 6 true 200) [] (Session.mk 3 corners)).map
      Outcome.session = some (Session.mk 0 []) :=
  congrArg (Option.map Outcome.session)
    ((C5_grip_reset openvr_h (mkSample gripBit 4 5 6 true 200) [] (Session.mk 3 corners)
      (by decide) (by decide)).1 (by decide))

/-- C6 fails as stated.  First run: Trigger is pressed with an invalid pose and kept held
while the pose turns valid; the second sample captures its position although Trigger was
already pressed in the previous sample.  Second run: Grip is held over three consecutive
samples and Trigger is pressed and released meanwhile; the reset is done again on the
third sample and removes the point captured in between. -/
theorem C6_counterexample :
    pressed (mkSample triggerBit 1 2 3 false 200).state
      openvr_h.k_EButton_SteamVR_Trigger = true ∧
    pressed (mkSample triggerBit 4 5 6 true 200).state
      openvr_h.k_EButton_SteamVR_Trigger = true ∧
    (collecting openvr_h
        [mkSample triggerBit 1 2 3 false 200, mkSample triggerBit 4 5 6 true 200,
          mkSample 0 0 0 0 true 200, mkSample menuBit 0 0 0 true 200]
        (Session.mk 0 [])).map (fun r => r.1) = some (Session.mk 1 [point3d.mk 4 5 6]) ∧
    (collecting openvr_h
        [mkSample (gripBit + triggerBit) 4 5 6 true 200, mkSample gripBit 0 0 0 true 200,
          mkSample menuBit 0 0 0 true 200]
        (Session.mk 0 [])).map (fun r => r.1) = some (Session.mk 1 [point3d.mk 4 5 6]) ∧
    (collecting openvr_h
        [mkSample (gripBit + triggerBit) 4 5 6 true 200, mkSample gripBit 0 0 0 true 200,
          mkSample gripBit 0 0 0 true 200, mkSample menuBit 0 0 0 true 200]
        (Session.mk 0 [])).map (fun r => r.1) = some (Session.mk 0 []) := by
  decide

/-- C6, amended: the collecting loop is level-triggered, it looks at the pressed bits of
the current sample only.  A Trigger held over any number of iterations with a rejected
pose makes a capture attempt on each of them, and the first iteration on which the pose
is accepted captures that sample's position without a release in between; the samples
read until Trigger is released are then used up, so the hold gives exactly one point.
Grip held over one or more iterations (Trigger and Menu not pressed) resets the sequence
on each of them and leaves it empty. -/
theorem C6_level_triggered (vr : OpenVR) {F : Type} (bad held grips rest : List (Sample F))
    (g r : Sample F) (st : Session F)
    (hbad : ∀ s ∈ bad, pressed s.state vr.k_EButton_SteamVR_Trigger = true ∧
      pressed s.state vr.k_EButton_ApplicationMenu = false ∧
      pressed s.state vr.k_EButton_Grip = false ∧
      ¬ (s.pose.bPoseIsValid = true ∧ s.pose.eTrackingResult = vr.TrackingResult_Running_OK))
    (hgT : pressed g.state vr.k_EButton_SteamVR_Trigger = true)
    (hgM : pressed g.state vr.k_EButton_ApplicationMenu = false)
    (hgG : pressed g.state vr.k_EButton_Grip = false)
    (hgv : g.pose.bPoseIsValid = true)
    (hgok : g.pose.eTrackingResult = vr.TrackingResult_Running_OK)
    (hheld : ∀ s ∈ held, pressed s.state vr.k_EButton_SteamVR_Trigger = true)
    (hr : pressed r.state vr.k_EButton_SteamVR_Trigger = false)
    (hgrips : ∀ s ∈ grips, pressed s.state vr.k_EButton_ApplicationMenu = false ∧
      pressed s.state vr.k_EButton_Grip = true ∧
      pressed s.state vr.k_EButton_SteamVR_Trigger = false)
    (hne : grips ≠ []) :
    collecting vr (bad ++ g :: (held ++ r :: rest)) st
      = collecting vr rest (Session.mk (st.count + 1) (st.points ++ [posOf g.pose])) ∧
    collecting vr (grips ++ rest) st = collecting vr rest (Session.mk 0 []) := by
  refine ⟨?_, collecting_grip_run vr grips rest hgrips st hne⟩
  rw [collecting_rejected_run vr bad _ st (fun s hs => (hbad s hs).2)]
  have hit := iteration_capture vr g held r rest st hgM hgT hgv hgok hheld hr
  rw [afterGrip_released vr g st hgG] at hit
  exact collecting_continuing vr g _ st _ rest hit

/-- C6 amended, on a Trigger held over an invalid pose, a valid pose and one more read:
the position of the valid-pose sample is captured once. -/
theorem C6_level_triggered_witness :
    collecting openvr_h
        ([mkSample triggerBit 1 2 3 false 200] ++ mkSample triggerBit 4 5 6 true 200 ::
          ([mkSample triggerBit 7 8 9 true 200] ++ mkSample 0 0 0 0 true 200 ::
            [mkSample menuBit 0 0 0 true 200]))
        (Session.mk 0 [])
      = collecting openvr_h [mkSample menuBit 0 0 0 true 200]
          (Session.mk (0 + 1) ([] ++ [posOf (mkSample triggerBit 4 5 6 true 200).pose])) :=
  (C6_level_triggered openvr_h [mkSample triggerBit 1 2 3 false 200]
    [mkSample triggerBit 7 8 9 true 200] [mkSample gripBit 0 0 0 true 200]
    [mkSample menuBit 0 0 0 true 200] (mkSample triggerBit 4 5 6 true 200)
    (mkSample 0 0 0 0 true 200) (Session.mk 0 [])
    (by intro s hs; rw [List.mem_singleton] at hs; subst hs; decide)
    (by decide) (by decide) (by decide) (by decide) (by decide)
    (by intro s hs; rw [List.mem_singleton] at hs; subst hs; decide)
    (by decide)
    (by intro s hs; rw [List.mem_singleton] at hs; subst hs; decide)
    (by simp)).1

/-- C7: when the selection loop ends with controller `c`, there is a tick of selection
(the last one read) on which `c`, a member of the candidate list, had the Trigger bit set
in its own sample, and every candidate before `c` in list order had it clear on that
tick.  On ticks on which no candidate has Trigger pressed the loop does not end. -/
theorem C7_controller_selection (vr : OpenVR) (controllers : List Nat)
    (ticks rest : List (Nat → Nat)) (c : Nat)
    (h : selectController vr controllers noController ticks = some (c, rest)) :
    (∃ earlier read, ticks = earlier ++ read :: rest ∧
      c ∈ controllers ∧
      pressed (VRControllerState_t.mk (read c)) vr.k_EButton_SteamVR_Trigger = true ∧
      ∃ before after, controllers = before ++ c :: after ∧
        ∀ d ∈ before,
          pressed (VRControllerState_t.mk (read d)) vr.k_EButton_SteamVR_Trigger = false) ∧
    (∀ quiet : List (Nat → Nat),
      (∀ read ∈ quiet, ∀ d ∈ controllers,
        pressed (VRControllerState_t.mk (read d)) vr.k_EButton_SteamVR_Trigger = false) →
      selectController vr controllers noController quiet = none) := by
  refine ⟨?_, selectController_none vr controllers⟩
  induction ticks with
  | nil => simp [selectController] at h
  | cons read rest0 ih =>
    rw [selectController_tick] at h
    by_cases hsel : selectFor vr read noController controllers = noController
    · rw [hsel] at h
      obtain ⟨earlier, read1, h1, h2⟩ := ih h
      exact ⟨read :: earlier, read1, by rw [h1, List.cons_append], h2⟩
    · rw [selectController_selected vr controllers _ rest0 hsel] at h
      simp only [Option.some.injEq, Prod.mk.injEq] at h
      obtain ⟨hc, hrest⟩ := h
      subst hrest
      rcases selectFor_spec vr read noController controllers with
        ⟨h1, _⟩ | ⟨before, after, h1, h2, h3⟩
      · exact absurd h1 hsel
      · rw [hc] at h1 h3
        refine ⟨[], read, rfl, ?_, h3, before, after, h1, h2⟩
        rw [h1]
        simp

/-- C7, on candidates 3 and 5 where device 5 presses Trigger on the second tick: the loop
ends there with controller 5, a member of the list. -/
theorem C7_controller_selection_witness :
    selectController openvr_h [3, 5] noController selectionTicks = some (5, [fun _ => 0]) ∧
    5 ∈ [3, 5] :=
  ⟨rfl, (C7_controller_selection openvr_h [3, 5] selectionTicks [fun _ => 0] 5 rfl).1.elim
    (fun _ h1 => h1.elim (fun _ h2 => h2.2.1))⟩

/-- C8: a sample with Trigger pressed, Menu and Grip not pressed, pose valid and tracking
Running_OK, followed by any number of samples with Trigger held and one with Trigger
released, is one iteration of the loop: it reads exactly these samples and leaves the
sequence from before with one point appended at the end, whose `x` and `z` are entries
`[0][3]` and `[2][3]` of the transform of the pressing sample; the stored points keep
their values and positions and the count grows by 1. -/
theorem C8_accepted_capture (vr : OpenVR) {F : Type} (s : Sample F) (held : List (Sample F))
    (r : Sample F) (rest : List (Sample F)) (st : Session F)
    (hT : pressed s.state vr.k_EButton_SteamVR_Trigger = true)
    (hM : pressed s.state vr.k_EButton_ApplicationMenu = false)
    (hG : pressed s.state vr.k_EButton_Grip = false)
    (hv : s.pose.bPoseIsValid = true)
    (hok : s.pose.eTrackingResult = vr.TrackingResult_Running_OK)
    (hheld : ∀ h ∈ held, pressed h.state vr.k_EButton_SteamVR_Trigger = true)
    (hr : pressed r.state vr.k_EButton_SteamVR_Trigger = false) :
    iteration vr s (held ++ r :: rest) st
      = some (Outcome.continuing
          (Session.mk (st.count + 1) (st.points ++ [posOf s.pose])) rest) ∧
    (posOf s.pose).x = s.pose.mDeviceToAbsoluteTracking.m 0 3 ∧
    (posOf s.pose).z = s.pose.mDeviceToAbsoluteTracking.m 2 3 ∧
    (st.points ++ [posOf s.pose]).length = st.points.length + 1 ∧
    (∀ i, i < st.points.length → (st.points ++ [posOf s.pose])[i]? = st.points[i]?) ∧
    collecting vr (s :: (held ++ r :: rest)) st
      = collecting vr rest (Session.mk (st.count + 1) (st.points ++ [posOf s.pose])) := by
  have hit := iteration_capture vr s held r rest st hM hT hv hok hheld hr
  rw [afterGrip_released vr s st hG] at hit
  refine ⟨hit, rfl, rfl, by simp, ?_, collecting_continuing vr s _ st _ rest hit⟩
  intro i hi
  exact List.getElem?_append_left hi

/-- C8, on a press at `(4, 5, 6)` held over one read at `(7, 8, 9)` and then released,
with three points stored: the point `(4, 5, 6)` is appended and the count becomes 4. -/
theorem C8_accepted_capture_witness :
    (iteration openvr_h (mkSample triggerBit 4 5 6 true 200)
        ([mkSample triggerBit 7 8 9 true 200] ++ mkSample 0 0 0 0 true 200 :: [])
        (Session.mk 3 corners)).map Outcome.session
      = some (Session.mk 4 (corners ++ [point3d.mk 4 5 6])) :=
  congrArg (Option.map Outcome.session)
    (C8_accepted_capture openvr_h (mkSample triggerBit 4 5 6 true 200)
      [mkSample triggerBit 7 8 9 true 200] (mkSample 0 0 0 0 true 200) []
      (Session.mk 3 corners) (by decide) (by decide) (by decide) (by decide) (by decide)
      (by intro s hs; rw [List.mem_singleton] at hs; subst hs; decide) (by decide)).1

/-- C9: every session at the start of an iteration of the collecting loop, and the session
at its exit, has `count` equal to the length of `points`, for every list of samples. -/
theorem C9_count_invariant (vr : OpenVR) {F : Type} (fuel : Nat) (samples : List (Sample F))
    (st : Session F)
    (h : st ∈ iterationStarts vr fuel samples (Session.mk 0 []) ∨
      ∃ rest, collecting vr samples (Session.mk 0 []) = some (st, rest)) :
    st.count = st.points.length := by
  rcases h with h | ⟨rest, h⟩
  · exact iterationStarts_invariant vr fuel samples (Session.mk 0 []) rfl st h
  · exact iterationStarts_invariant vr samples.length samples (Session.mk 0 []) rfl st
      (collectingFuel_mem_iterationStarts vr samples.length samples _ st rest h)

/-- C9, on a run that captures one point and then resets with Grip: the session with one
point is met at the start of an iteration and has count 1. -/
theorem C9_count_invariant_witness :
    Session.mk 1 [point3d.mk 4 5 6] ∈ iterationStarts openvr_h 3
      [mkSample triggerBit 4 5 6 true 200, mkSample 0 0 0 0 true 200,
        mkSample gripBit 0 0 0 true 200] (Session.mk 0 []) ∧
    (Session.mk 1 [point3d.mk (4 : Int) 5 6]).count
      = (Session.mk 1 [point3d.mk (4 : Int) 5 6]).points.length :=
  ⟨by decide, C9_count_invariant openvr_h 3
    [mkSample triggerBit 4 5 6 true 200, mkSample 0 0 0 0 true 200,
      mkSample gripBit 0 0 0 true 200] (Session.mk 1 [point3d.mk 4 5 6]) (Or.inl (by decide))⟩

/-- C10, on the corner points and a copy with other heights and another first `x`. -/
theorem C10_output_independence_witness :
    finish corners = finish [point3d.mk 50 1 0, point3d.mk 1 2 0, point3d.mk 1 3 1] :=
  (C10_output_independence corners [point3d.mk 50 1 0, point3d.mk 1 2 0, point3d.mk 1 3 1]
    rfl (by decide)
    (by
      intro i hp hq
      have hi : i < 3 := hp
      interval_cases i <;> rfl)
    (by
      intro i hp hq h1
      have hi : i < 3 := hp
      interval_cases i <;> rfl)).1

end RoomSetup
